import Mathlib

/-
  Verification of the ably-go client options layer and of the
  spec-described realtime connection machinery.

  Go strings are modelled as lists of characters (`Str`), Go `time.Duration`
  (an int64 count of nanoseconds) as `Int`, Go `int` as `Int`, nilable Go
  slices as `Option (List _)`, and `(T, error)` results as `Except Str T`.
-/

namespace Ably

/-- Go strings, modelled as lists of characters. -/
abbrev Str := List Char

/-- Translation of unicode.IsSpace restricted to the white-space runes Go's
documentation lists explicitly (tab, newline, vertical tab, form feed,
carriage return, space, NEL, NBSP); the hosts and environments handled by
this package are ASCII. -/
def isSpace (c : Char) : Bool :=
  c == ' ' || c == '\t' || c == '\n' || c == Char.ofNat 11 || c == Char.ofNat 12 ||
    c == '\r' || c == Char.ofNat 133 || c == Char.ofNat 160

/-- Translation of strings.TrimSpace: drop leading and trailing white space. -/
def trimSpace (s : Str) : Str :=
  ((s.dropWhile isSpace).reverse.dropWhile isSpace).reverse

/-- Translation of func empty (options.go): len of TrimSpace is zero. -/
def empty (s : Str) : Bool :=
  (trimSpace s).length == 0

/-- Translation of strings.EqualFold, with simple per-character case folding
(the arguments used in this package are ASCII). -/
def eqFold (a b : Str) : Bool :=
  a.map Char.toLower == b.map Char.toLower

/-- Go time.Duration: a count of nanoseconds. -/
abbrev Duration := Int

/-- One second in nanoseconds, as in Go's time package. -/
def second : Duration := 1000000000

/-- One minute in nanoseconds, as in Go's time package. -/
def minute : Duration := 60 * second

/-- Constant RestHost (options.go line 23). -/
def RestHost : Str := "rest.ably.io".toList

/-- Constant RealtimeHost (options.go line 24). -/
def RealtimeHost : Str := "realtime.ably.io".toList

/-- Constant Port (options.go line 25). -/
def Port : Int := 80

/-- Constant TLSPort (options.go line 26). -/
def TLSPort : Int := 443

/-- Translation of defaultFallbackHosts (options.go lines 45-53). -/
def defaultFallbackHosts : List Str :=
  [ "a.ably-realtime.com".toList,
    "b.ably-realtime.com".toList,
    "c.ably-realtime.com".toList,
    "d.ably-realtime.com".toList,
    "e.ably-realtime.com".toList ]

/-- Translation of getEnvFallbackHosts (options.go lines 55-63); each entry is
Sprintf of the environment, a dash, and the lettered fallback suffix. -/
def getEnvFallbackHosts (env : Str) : List Str :=
  [ env ++ "-".toList ++ "a-fallback.ably-realtime.com".toList,
    env ++ "-".toList ++ "b-fallback.ably-realtime.com".toList,
    env ++ "-".toList ++ "c-fallback.ably-realtime.com".toList,
    env ++ "-".toList ++ "d-fallback.ably-realtime.com".toList,
    env ++ "-".toList ++ "e-fallback.ably-realtime.com".toList ]

/-- Translation of AuthOptions (options.go); only the Key field is read by the
functions embedded here. -/
structure AuthOptions where
  Key : Str := []
deriving DecidableEq

/-- Translation of ClientOptions (options.go lines 187-261); only the fields
read by the embedded functions are modelled.  A nil FallbackHosts slice is
`none`. -/
structure ClientOptions where
  Auth : AuthOptions := {}
  RestHost : Str := []
  FallbackHostsUseDefault : Bool := false
  FallbackHosts : Option (List Str) := none
  RealtimeHost : Str := []
  Environment : Str := []
  Port : Int := 0
  TLSPort : Int := 0
  HTTPMaxRetryCount : Int := 0
  HTTPRequestTimeout : Duration := 0
  FallbackRetryTimeout : Duration := 0
  NoTLS : Bool := false
  IdempotentRestPublishing : Bool := false
  TimeoutConnect : Duration := 0
  TimeoutDisconnect : Duration := 0
  TimeoutSuspended : Duration := 0
  RealtimeRequestTimeout : Duration := 0
  DisconnectedRetryTimeout : Duration := 0
deriving DecidableEq

/-- Translation of the defaultOptions value (options.go lines 29-43). -/
def defaultOptions : ClientOptions :=
  { RestHost := RestHost
    FallbackHosts := some defaultFallbackHosts
    HTTPMaxRetryCount := 3
    HTTPRequestTimeout := 10 * second
    RealtimeHost := RealtimeHost
    TimeoutDisconnect := 30 * second
    RealtimeRequestTimeout := 10 * second
    DisconnectedRetryTimeout := 15 * second
    TimeoutSuspended := 2 * minute
    FallbackRetryTimeout := 10 * minute
    IdempotentRestPublishing := false
    Port := Port
    TLSPort := TLSPort }

/-- Translation of ClientOptions.isProductionEnvironment (options.go 281-284). -/
def ClientOptions.isProductionEnvironment (opts : ClientOptions) : Bool :=
  empty opts.Environment || eqFold opts.Environment "production".toList

/-- Translation of ClientOptions.activePort (options.go 286-305): the port in
use and whether it is the default one. -/
def ClientOptions.activePort (opts : ClientOptions) : Int × Bool :=
  if opts.NoTLS then
    let port := if opts.Port == 0 then defaultOptions.Port else opts.Port
    (port, port == defaultOptions.Port)
  else
    let port := if opts.TLSPort == 0 then defaultOptions.TLSPort else opts.TLSPort
    (port, port == defaultOptions.TLSPort)

/-- Translation of ClientOptions.timeoutSuspended (options.go 321-326). -/
def ClientOptions.timeoutSuspended (opts : ClientOptions) : Duration :=
  if opts.TimeoutSuspended != 0 then opts.TimeoutSuspended
  else defaultOptions.TimeoutSuspended

/-- Translation of ClientOptions.fallbackRetryTimeout (options.go 328-333). -/
def ClientOptions.fallbackRetryTimeout (opts : ClientOptions) : Duration :=
  if opts.FallbackRetryTimeout != 0 then opts.FallbackRetryTimeout
  else defaultOptions.FallbackRetryTimeout

/-- Translation of ClientOptions.realtimeRequestTimeout (options.go 335-340). -/
def ClientOptions.realtimeRequestTimeout (opts : ClientOptions) : Duration :=
  if opts.RealtimeRequestTimeout != 0 then opts.RealtimeRequestTimeout
  else defaultOptions.RealtimeRequestTimeout

/-- Translation of ClientOptions.disconnectedRetryTimeout (options.go 342-347). -/
def ClientOptions.disconnectedRetryTimeout (opts : ClientOptions) : Duration :=
  if opts.DisconnectedRetryTimeout != 0 then opts.DisconnectedRetryTimeout
  else defaultOptions.DisconnectedRetryTimeout

/-- Translation of ClientOptions.getRestHost (options.go 349-357). -/
def ClientOptions.getRestHost (opts : ClientOptions) : Str :=
  if !(empty opts.RestHost) then opts.RestHost
  else if !opts.isProductionEnvironment then
    opts.Environment ++ "-".toList ++ defaultOptions.RestHost
  else defaultOptions.RestHost

/-- Translation of ClientOptions.getRealtimeHost (options.go 359-372). -/
def ClientOptions.getRealtimeHost (opts : ClientOptions) : Str :=
  if !(empty opts.RealtimeHost) then opts.RealtimeHost
  else if !(empty opts.RestHost) then opts.RestHost
  else if !opts.isProductionEnvironment then
    opts.Environment ++ "-".toList ++ defaultOptions.RealtimeHost
  else defaultOptions.RealtimeHost

/-- Translation of net.JoinHostPort: a host that contains a colon (an IPv6
literal) is wrapped in square brackets. -/
def joinHostPort (host port : Str) : Str :=
  if host.contains ':' then "[".toList ++ host ++ "]:".toList ++ port
  else host ++ ":".toList ++ port

/-- Translation of strconv.Itoa / strconv.FormatInt base 10, via Lean's
decimal printing of integers (identical digit strings, minus sign included). -/
def itoa (n : Int) : Str := (toString n).toList

/-- Translation of ClientOptions.restURL (options.go 378-386). -/
def ClientOptions.restURL (opts : ClientOptions) : Str :=
  let restHost := opts.getRestHost
  let port := (opts.activePort).1
  let baseUrl := joinHostPort restHost (itoa port)
  if opts.NoTLS then "http://".toList ++ baseUrl
  else "https://".toList ++ baseUrl

/-- Translation of ClientOptions.realtimeURL (options.go 388-396). -/
def ClientOptions.realtimeURL (opts : ClientOptions) : Str :=
  let realtimeHost := opts.getRealtimeHost
  let port := (opts.activePort).1
  let baseUrl := joinHostPort realtimeHost (itoa port)
  if opts.NoTLS then "ws://".toList ++ baseUrl
  else "wss://".toList ++ baseUrl

/-- Translation of ClientOptions.getFallbackHosts (options.go 398-421).
The ok payload mirrors the Go slice result, nil being `none`. -/
def ClientOptions.getFallbackHosts (opts : ClientOptions) :
    Except Str (Option (List Str)) :=
  let isDefaultPort := (opts.activePort).2
  if opts.FallbackHostsUseDefault then
    if opts.FallbackHosts.isSome then
      .error "fallbackHosts and fallbackHostsUseDefault cannot both be set".toList
    else if !isDefaultPort then
      .error "fallbackHostsUseDefault cannot be set when port or tlsPort are set".toList
    else
      .ok defaultOptions.FallbackHosts
  else if opts.FallbackHosts.isNone && empty opts.RestHost &&
      empty opts.RealtimeHost && isDefaultPort then
    if opts.isProductionEnvironment then .ok defaultOptions.FallbackHosts
    else .ok (some (getEnvFallbackHosts opts.Environment))
  else
    .ok opts.FallbackHosts

/-- Translation of ClientOptions.validate (options.go 271-279): the error of
getFallbackHosts, if any. -/
def ClientOptions.validate (opts : ClientOptions) : Option Str :=
  match opts.getFallbackHosts with
  | .error e => some e
  | .ok _ => none

/-- Translation of strings.IndexRune specialised to one rune: the index of the
first occurrence of c in s, or -1 when absent. -/
def indexRune (s : Str) (c : Char) : Int :=
  match s with
  | [] => -1
  | a :: rest =>
    if a == c then 0
    else if indexRune rest c == -1 then -1 else indexRune rest c + 1

/-- Translation of AuthOptions.KeyName (options.go 172-177). -/
def AuthOptions.KeyName (opts : AuthOptions) : Str :=
  if indexRune opts.Key ':' != -1 then
    opts.Key.take (indexRune opts.Key ':').toNat
  else []

/-- Translation of AuthOptions.KeySecret (options.go 180-185). -/
def AuthOptions.KeySecret (opts : AuthOptions) : Str :=
  if indexRune opts.Key ':' != -1 then
    opts.Key.drop ((indexRune opts.Key ':').toNat + 1)
  else []

/-- Go url.Values, modelled as an association list from query keys to the
single value stored by Set. -/
abbrev Values := List (Str × Str)

/-- Translation of url.Values.Set: replace the value stored under the key, or
add the pair when the key is absent. -/
def setValue (out : Values) (k v : Str) : Values :=
  match out with
  | [] => [(k, v)]
  | (k0, v0) :: rest =>
    if k0 == k then (k, v) :: rest else (k0, v0) :: setValue rest k v

/-- Lookup in the url.Values model: url.Values.Get as an Option. -/
def getValue (out : Values) (k : Str) : Option Str :=
  match out with
  | [] => none
  | (k0, v0) :: rest => if k0 == k then some v0 else getValue rest k

/-- Translation of ScopeParams (options.go 460-464). -/
structure ScopeParams where
  Start : Int := 0
  End : Int := 0
  Unit : Str := []
deriving DecidableEq

/-- Translation of ScopeParams.EncodeValues (options.go 466-480).  The Go
method mutates out and returns an error; the model returns the mutated values
together with the optional error. -/
def ScopeParams.EncodeValues (s : ScopeParams) (out : Values) : Values × Option Str :=
  if s.Start != 0 && s.End != 0 && decide (s.Start > s.End) then
    (out, some "start must be before end".toList)
  else
    let out1 := if s.Start != 0 then setValue out "start".toList (itoa s.Start) else out
    let out2 := if s.End != 0 then setValue out1 "end".toList (itoa s.End) else out1
    let out3 := if s.Unit != [] then setValue out2 "unit".toList s.Unit else out2
    (out3, none)

/-- Translation of PaginateParams (options.go 482-486). -/
structure PaginateParams where
  Scope : ScopeParams := {}
  Limit : Int := 0
  Direction : Str := []
deriving DecidableEq

/-- Translation of PaginateParams.EncodeValues (options.go 488-505).  The
limit parameter is written before the direction switch; an invalid direction
returns the error with the mutations made so far; the error returned by
ScopeParams.EncodeValues on line 503 is discarded, exactly as in the Go code. -/
def PaginateParams.EncodeValues (p : PaginateParams) (out : Values) : Values × Option Str :=
  let out1 :=
    if decide (p.Limit < 0) then setValue out "limit".toList (itoa 100)
    else if p.Limit != 0 then setValue out "limit".toList (itoa p.Limit)
    else out
  if p.Direction == [] then
    ((p.Scope.EncodeValues out1).1, none)
  else if p.Direction == "backwards".toList || p.Direction == "forwards".toList then
    ((p.Scope.EncodeValues (setValue out1 "direction".toList p.Direction)).1, none)
  else
    (out1, some ("Invalid value for direction: ".toList ++ p.Direction))

/-- Modelled from the spec: the connection-state enumeration of section 3 of
the spec; the realtime connection state machine implementation is not among
the provided sources, only its tests are. -/
inductive ConnectionState where
  | initialized
  | connecting
  | connected
  | disconnected
  | suspended
  | closing
  | closed
  | failed
deriving DecidableEq

/-- Modelled from the spec: the events that drive the connection state
machine (section 4.1): the two user calls, transport lifecycle events (the
open event stands for transport opened with the protocol handshake ok, the
error event covers transport errors and timeouts, the close-ack event covers
the transport close acknowledgement or its timeout while closing), scheduler
decisions, the suspension timeout, and non-retryable protocol errors. -/
inductive ConnEvent where
  | userConnect
  | userClose
  | transportOpened
  | transportError
  | transportClosed
  | schedulerRetry
  | suspendedTimeout
  | closeAck
  | nonRetryableError
deriving DecidableEq

/-- Modelled from the spec: an event is automatic when it is not one of the
explicit user calls (section 3 speaks of automatic transitions, section 4.1
lists connect and close as the user-initiated requests). -/
def ConnEvent.isAutomatic : ConnEvent → Bool
  | .userConnect => false
  | .userClose => false
  | _ => true

/-- Modelled from the spec: the transition table of section 4.1, with the
terminality of closed and failed required by section 3 (no transition at all
leaves a terminal state except none; the starred close and failed rules are
read as applying to non-terminal states, as section 3 demands).  Pairs the
spec lists no transition for are no-ops. -/
def stepConn (s : ConnectionState) (e : ConnEvent) : ConnectionState :=
  match s, e with
  | .closed, _ => .closed
  | .failed, _ => .failed
  | _, .userClose => .closing
  | _, .nonRetryableError => .failed
  | .initialized, .userConnect => .connecting
  | .disconnected, .userConnect => .connecting
  | .suspended, .userConnect => .connecting
  | .connecting, .transportOpened => .connected
  | .connecting, .transportError => .disconnected
  | .connected, .transportError => .disconnected
  | .connected, .transportClosed => .disconnected
  | .disconnected, .schedulerRetry => .connecting
  | .disconnected, .suspendedTimeout => .suspended
  | .suspended, .schedulerRetry => .connecting
  | .closing, .closeAck => .closed
  | s, _ => s

/-- Modelled from the spec: a client run is the fold of the transition table
over the event sequence, starting in the initialized state. -/
def runConn (es : List ConnEvent) : ConnectionState :=
  es.foldl stepConn .initialized

/-- Modelled from the spec: a client state is reachable when some event
sequence reaches it from the initialized state. -/
def ReachableConn (s : ConnectionState) : Prop :=
  ∃ es, runConn es = s

/-- Modelled from the spec: a timed run processes events paired with arrival
times; with a fixed clock the transition taken depends only on the event
itself, the timing-dependent behaviours (retry delays, suspension deadline)
entering as explicit scheduler and timeout events in the sequence. -/
def runTimed (clock : Int) (init : ConnectionState)
    (tes : List (ConnEvent × Int)) : ConnectionState :=
  tes.foldl (fun s te => stepConn s te.1) init

/-- Modelled from the spec: a registered listener of the connection event
emitter (section 4.1): whether it was registered by the once variant, whether
it is still registered (active), and how many times it has been invoked. -/
structure Listener where
  once : Bool
  active : Bool
  calls : Nat
deriving DecidableEq

/-- Modelled from the spec: delivering one event to a listener: an active
listener is invoked and, when it was registered by the once variant, it is
deregistered; an inactive listener is untouched. -/
def fireListener (l : Listener) : Listener :=
  if l.active then { once := l.once, active := !l.once, calls := l.calls + 1 }
  else l

/-- Modelled from the spec: the emitter state: the number of matching events
already emitted but still pending delivery (in flight), and the registered
listeners in registration order. -/
structure EmitterState where
  pending : Nat
  listeners : List Listener
deriving DecidableEq

/-- Modelled from the spec: one delivery step: when a matching event is
pending, it is delivered to every listener in registration order; otherwise
nothing happens. -/
def deliverOne (st : EmitterState) : EmitterState :=
  match st.pending with
  | 0 => st
  | n + 1 => { pending := n, listeners := st.listeners.map fireListener }

/-- Modelled from the spec: k successive delivery steps. -/
def deliverN : Nat → EmitterState → EmitterState
  | 0, st => st
  | k + 1, st => deliverN k (deliverOne st)

/-- Modelled from the spec: registering a listener through the once variant
appends a fresh once-listener, active and never invoked, to the emitter; this
may happen while matching events are already in flight. -/
def registerOnce (st : EmitterState) : EmitterState :=
  { st with listeners := st.listeners ++ [{ once := true, active := true, calls := 0 }] }

/-- Claim C2: the default durations are DisconnectedRetryTimeout 15 seconds,
TimeoutSuspended 2 minutes, FallbackRetryTimeout 10 minutes and
RealtimeRequestTimeout 10 seconds, and each accessor returns the user-supplied
value when it is nonzero and the stated default when it is zero. -/
theorem C2_duration_defaults_and_overrides (opts : ClientOptions) :
    defaultOptions.DisconnectedRetryTimeout = 15 * second ∧
    defaultOptions.TimeoutSuspended = 2 * minute ∧
    defaultOptions.FallbackRetryTimeout = 10 * minute ∧
    defaultOptions.RealtimeRequestTimeout = 10 * second ∧
    opts.disconnectedRetryTimeout =
      (if opts.DisconnectedRetryTimeout = 0 then 15 * second
       else opts.DisconnectedRetryTimeout) ∧
    opts.timeoutSuspended =
      (if opts.TimeoutSuspended = 0 then 2 * minute else opts.TimeoutSuspended) ∧
    opts.fallbackRetryTimeout =
      (if opts.FallbackRetryTimeout = 0 then 10 * minute
       else opts.FallbackRetryTimeout) ∧
    opts.realtimeRequestTimeout =
      (if opts.RealtimeRequestTimeout = 0 then 10 * second
       else opts.RealtimeRequestTimeout) := by
  refine ⟨rfl, rfl, rfl, rfl, ?_, ?_, ?_, ?_⟩ <;>
    simp only [ClientOptions.disconnectedRetryTimeout, ClientOptions.timeoutSuspended,
      ClientOptions.fallbackRetryTimeout, ClientOptions.realtimeRequestTimeout,
      bne_iff_ne, ne_eq, ite_not, defaultOptions] <;> rfl

/-- Claim C3: getRestHost returns the custom RestHost when it is non-empty
(non-blank, per the empty helper of the code), otherwise the
environment-prefixed rest host for a non-production environment, otherwise
the default rest host; getRealtimeHost returns the custom RealtimeHost when
non-empty, else a set RestHost, else the environment-prefixed realtime host
for a non-production environment, otherwise the default realtime host. -/
theorem C3_host_resolution (opts : ClientOptions) :
    opts.getRestHost =
      (if empty opts.RestHost = false then opts.RestHost
       else if opts.isProductionEnvironment = false then
         opts.Environment ++ "-rest.ably.io".toList
       else "rest.ably.io".toList) ∧
    opts.getRealtimeHost =
      (if empty opts.RealtimeHost = false then opts.RealtimeHost
       else if empty opts.RestHost = false then opts.RestHost
       else if opts.isProductionEnvironment = false then
         opts.Environment ++ "-realtime.ably.io".toList
       else "realtime.ably.io".toList) := by
  constructor
  · unfold ClientOptions.getRestHost
    cases h1 : empty opts.RestHost <;>
      cases h2 : opts.isProductionEnvironment <;>
      simp [h1, h2, defaultOptions, RestHost, List.append_assoc]
  · unfold ClientOptions.getRealtimeHost
    cases h0 : empty opts.RealtimeHost <;>
      cases h1 : empty opts.RestHost <;>
      cases h2 : opts.isProductionEnvironment <;>
      simp [h0, h1, h2, defaultOptions, RealtimeHost, List.append_assoc]

/-- Claim C1: with FallbackHostsUseDefault false, a nil FallbackHosts slice,
blank RestHost and RealtimeHost and the active port equal to the default
port, getFallbackHosts succeeds and returns the five bare default fallback
hosts in production, and the five environment-prefixed fallback hosts, in
order a to e, otherwise. -/
theorem C1_fallback_hosts_resolution (opts : ClientOptions)
    (h1 : opts.FallbackHostsUseDefault = false)
    (h2 : opts.FallbackHosts = none)
    (h3 : empty opts.RestHost = true)
    (h4 : empty opts.RealtimeHost = true)
    (h5 : (opts.activePort).2 = true) :
    (opts.isProductionEnvironment = true →
      opts.getFallbackHosts = .ok (some
        [ "a.ably-realtime.com".toList,
          "b.ably-realtime.com".toList,
          "c.ably-realtime.com".toList,
          "d.ably-realtime.com".toList,
          "e.ably-realtime.com".toList ])) ∧
    (opts.isProductionEnvironment = false →
      opts.getFallbackHosts = .ok (some
        [ opts.Environment ++ "-a-fallback.ably-realtime.com".toList,
          opts.Environment ++ "-b-fallback.ably-realtime.com".toList,
          opts.Environment ++ "-c-fallback.ably-realtime.com".toList,
          opts.Environment ++ "-d-fallback.ably-realtime.com".toList,
          opts.Environment ++ "-e-fallback.ably-realtime.com".toList ])) := by
  constructor <;> intro hp <;>
    simp [ClientOptions.getFallbackHosts, h1, h2, h3, h4, h5, hp,
      defaultOptions, defaultFallbackHosts, getEnvFallbackHosts,
      List.append_assoc]

/-- Claim C1 witness: the zero-valued options are production with every
hypothesis met, and yield the bare default fallback host list. -/
theorem C1_witness :
    ({} : ClientOptions).FallbackHostsUseDefault = false ∧
    (({} : ClientOptions).activePort).2 = true ∧
    ({} : ClientOptions).getFallbackHosts = .ok (some
      [ "a.ably-realtime.com".toList,
        "b.ably-realtime.com".toList,
        "c.ably-realtime.com".toList,
        "d.ably-realtime.com".toList,
        "e.ably-realtime.com".toList ]) :=
  ⟨rfl, rfl,
    (C1_fallback_hosts_resolution {} rfl rfl rfl rfl rfl).1 rfl⟩

/-- Claim C8: getFallbackHosts, and hence validate, fails exactly when
FallbackHostsUseDefault is set together with either a non-nil FallbackHosts
slice or a non-default active port. -/
theorem C8_fallback_error_iff (opts : ClientOptions) :
    ((∃ e, opts.getFallbackHosts = .error e) ↔
      (opts.FallbackHostsUseDefault = true ∧
        (opts.FallbackHosts ≠ none ∨ (opts.activePort).2 = false))) ∧
    (opts.validate ≠ none ↔
      (opts.FallbackHostsUseDefault = true ∧
        (opts.FallbackHosts ≠ none ∨ (opts.activePort).2 = false))) := by
  have key : (∃ e, opts.getFallbackHosts = .error e) ↔
      (opts.FallbackHostsUseDefault = true ∧
        (opts.FallbackHosts ≠ none ∨ (opts.activePort).2 = false)) := by
    unfold ClientOptions.getFallbackHosts
    cases hU : opts.FallbackHostsUseDefault <;>
      cases hFB : opts.FallbackHosts <;>
      cases hP : (opts.activePort).2 <;>
      simp only [hU, hFB, hP] <;>
      split_ifs <;> simp_all
  refine ⟨key, ?_⟩
  rw [← key]
  unfold ClientOptions.validate
  cases h : opts.getFallbackHosts <;> simp [h]

/-- Setting a key stores its value. -/
theorem getValue_setValue_self (out : Values) (k v : Str) :
    getValue (setValue out k v) k = some v := by
  induction out with
  | nil => simp [setValue, getValue]
  | cons hd tl ih =>
    unfold setValue
    by_cases h : hd.1 = k
    · simp [h, getValue]
    · have hb : (hd.1 == k) = false := beq_eq_false_iff_ne.mpr h
      simp [hb, getValue, ih]

/-- Setting a key leaves every other key unchanged. -/
theorem getValue_setValue_ne (out : Values) (k k' v : Str) (h : k ≠ k') :
    getValue (setValue out k v) k' = getValue out k' := by
  induction out with
  | nil => simp [setValue, getValue, beq_eq_false_iff_ne.mpr h]
  | cons hd tl ih =>
    unfold setValue
    by_cases h0 : hd.1 = k
    · simp [h0, getValue, beq_eq_false_iff_ne.mpr h]
    · have hb : (hd.1 == k) = false := beq_eq_false_iff_ne.mpr h0
      simp only [hb, Bool.false_eq_true, if_false]
      unfold getValue
      by_cases h1 : hd.1 = k'
      · simp [h1]
      · simp [beq_eq_false_iff_ne.mpr h1, ih]

/-- Setting the start key leaves the limit key unchanged. -/
theorem getValue_set_start_limit (out : Values) (v : Str) :
    getValue (setValue out ['s', 't', 'a', 'r', 't'] v) ['l', 'i', 'm', 'i', 't'] =
      getValue out ['l', 'i', 'm', 'i', 't'] :=
  getValue_setValue_ne _ _ _ _ (by decide)

/-- Setting the end key leaves the limit key unchanged. -/
theorem getValue_set_end_limit (out : Values) (v : Str) :
    getValue (setValue out ['e', 'n', 'd'] v) ['l', 'i', 'm', 'i', 't'] =
      getValue out ['l', 'i', 'm', 'i', 't'] :=
  getValue_setValue_ne _ _ _ _ (by decide)

/-- Setting the unit key leaves the limit key unchanged. -/
theorem getValue_set_unit_limit (out : Values) (v : Str) :
    getValue (setValue out ['u', 'n', 'i', 't'] v) ['l', 'i', 'm', 'i', 't'] =
      getValue out ['l', 'i', 'm', 'i', 't'] :=
  getValue_setValue_ne _ _ _ _ (by decide)

/-- Setting the direction key leaves the limit key unchanged. -/
theorem getValue_set_direction_limit (out : Values) (v : Str) :
    getValue (setValue out ['d', 'i', 'r', 'e', 'c', 't', 'i', 'o', 'n'] v)
      ['l', 'i', 'm', 'i', 't'] = getValue out ['l', 'i', 'm', 'i', 't'] :=
  getValue_setValue_ne _ _ _ _ (by decide)

/-- ScopeParams.EncodeValues only touches the start, end and unit keys, so
the limit key keeps its value. -/
theorem getValue_scope_limit (s : ScopeParams) (out : Values) :
    getValue ((s.EncodeValues out).1) ['l', 'i', 'm', 'i', 't'] =
      getValue out ['l', 'i', 'm', 'i', 't'] := by
  unfold ScopeParams.EncodeValues
  split
  · rfl
  · simp only
    split <;> split <;> split <;>
      (try simp [getValue_set_start_limit, getValue_set_end_limit,
        getValue_set_unit_limit]) <;> (try rfl)

/-- The scope-limit lemma restated against the string-literal spelling of the
keys, as they appear in the translated definitions. -/
theorem getValue_scope_limit' (s : ScopeParams) (out : Values) :
    getValue ((s.EncodeValues out).1) "limit".toList =
      getValue out "limit".toList :=
  getValue_scope_limit s out

/-- The direction-limit lemma restated against the string-literal spelling of
the keys, as they appear in the translated definitions. -/
theorem getValue_set_direction_limit' (out : Values) (v : Str) :
    getValue (setValue out "direction".toList v) "limit".toList =
      getValue out "limit".toList :=
  getValue_set_direction_limit out v

/-- Claim C9: PaginateParams.EncodeValues fails exactly when Direction is not
one of the empty string, backwards or forwards; the start-before-end error of
ScopeParams.EncodeValues is discarded (a nonzero Start greater than a nonzero
End still yields a nil error for any valid direction, an instance of the
right-to-left direction of the first conjunct, whose right-hand side never
mentions Start or End); and a negative Limit stores the value 100 under the
limit key. -/
theorem C9_paginate_encode_values (p : PaginateParams) (out : Values) :
    (((p.EncodeValues out).2 ≠ none) ↔
      ¬(p.Direction = [] ∨ p.Direction = "backwards".toList ∨
        p.Direction = "forwards".toList)) ∧
    getValue (p.EncodeValues out).1 "limit".toList =
      (if p.Limit < 0 then some "100".toList
       else if p.Limit = 0 then getValue out "limit".toList
       else some (itoa p.Limit)) := by
  unfold PaginateParams.EncodeValues
  refine ⟨?_, ?_⟩
  · cases hb1 : (p.Direction == ([] : Str)) with
    | true => simp [eq_of_beq hb1]
    | false =>
      cases hb2 : (p.Direction == "backwards".toList) with
      | true =>
        simp only [hb1, Bool.false_eq_true, if_false, hb2, Bool.true_or, if_true]
        simp [eq_of_beq hb2]
      | false =>
        cases hb3 : (p.Direction == "forwards".toList) with
        | true =>
          simp only [hb1, Bool.false_eq_true, if_false, hb2, Bool.false_or, hb3,
            if_true]
          simp [eq_of_beq hb3]
        | false =>
          simp only [hb1, Bool.false_eq_true, if_false, hb2, Bool.false_or, hb3]
          simp [ne_of_beq_false hb1]
          exact ⟨ne_of_beq_false hb2, ne_of_beq_false hb3⟩
  · have hout1 : ∀ o : Values,
        getValue (if decide (p.Limit < 0) then setValue o "limit".toList (itoa 100)
          else if p.Limit != 0 then setValue o "limit".toList (itoa p.Limit)
          else o) "limit".toList =
        (if p.Limit < 0 then some "100".toList
         else if p.Limit = 0 then getValue o "limit".toList
         else some (itoa p.Limit)) := by
      intro o
      by_cases hneg : p.Limit < 0
      · simp [hneg, getValue_setValue_self]
        try rfl
      · by_cases hz : p.Limit = 0
        · simp [hneg, hz]
        · have : (p.Limit != 0) = true := bne_iff_ne.mpr hz
          simp [hneg, hz, this, getValue_setValue_self]
    cases hb1 : (p.Direction == ([] : Str)) with
    | true =>
      simp only [hb1, if_true]
      simp only [getValue_scope_limit']
      exact hout1 out
    | false =>
      cases hb2 : (p.Direction == "backwards".toList) with
      | true =>
        simp only [hb1, Bool.false_eq_true, if_false, hb2, Bool.true_or, if_true]
        simp only [getValue_scope_limit', getValue_set_direction_limit']
        exact hout1 out
      | false =>
        cases hb3 : (p.Direction == "forwards".toList) with
        | true =>
          simp only [hb1, Bool.false_eq_true, if_false, hb2, Bool.false_or, hb3,
            if_true]
          simp only [getValue_scope_limit', getValue_set_direction_limit']
          exact hout1 out
        | false =>
          simp only [hb1, Bool.false_eq_true, if_false, hb2, Bool.false_or, hb3]
          exact hout1 out

/-- indexRune either reports absence or a nonnegative index. -/
theorem indexRune_cases (s : Str) (c : Char) :
    indexRune s c = -1 ∨ 0 ≤ indexRune s c := by
  induction s with
  | nil => exact Or.inl rfl
  | cons a rest ih =>
    simp only [indexRune]
    split
    · exact Or.inr (by omega)
    · split
      · exact Or.inl rfl
      · rename_i hne
        have h0 : indexRune rest c ≠ -1 := by
          intro h
          simp [h] at hne
        rcases ih with h1 | h1
        · exact absurd h1 h0
        · exact Or.inr (by omega)

/-- indexRune reports -1 exactly when the character is absent. -/
theorem indexRune_neg1_iff (s : Str) (c : Char) :
    indexRune s c = -1 ↔ c ∉ s := by
  induction s with
  | nil => simp [indexRune]
  | cons a rest ih =>
    simp only [indexRune, List.mem_cons]
    by_cases hac : (a == c) = true
    · have ha : a = c := eq_of_beq hac
      simp only [hac, if_true]
      constructor
      · intro h
        exact absurd h (by decide)
      · intro h
        exact absurd (Or.inl ha.symm) h
    · have hacf : (a == c) = false := by
        cases h : (a == c)
        · rfl
        · exact absurd h hac
      have ha : c ≠ a := fun h => hac (beq_iff_eq.mpr h.symm)
      by_cases hr : indexRune rest c = -1
      · simp [hacf, hr, ih.mp hr, ha]
      · have hpos : 0 ≤ indexRune rest c := (indexRune_cases rest c).resolve_left hr
        have hrf : (indexRune rest c == -1) = false := by
          cases h : (indexRune rest c == -1)
          · rfl
          · exact absurd (eq_of_beq h) hr
        have hcr : c ∈ rest := by
          by_contra hno
          exact hr (ih.mpr hno)
        simp [hacf, hrf, hcr]
        omega

/-- When the character occurs, the Key splits as the part before its first
occurrence, the character itself, and the part after it, and the part before
does not contain the character. -/
theorem indexRune_split (s : Str) (c : Char) (h : indexRune s c ≠ -1) :
    s.take (indexRune s c).toNat ++ c :: s.drop ((indexRune s c).toNat + 1) = s ∧
    c ∉ s.take (indexRune s c).toNat := by
  induction s with
  | nil => exact absurd rfl h
  | cons a rest ih =>
    by_cases hac : (a == c) = true
    · have ha : a = c := eq_of_beq hac
      subst ha
      have hz : indexRune (a :: rest) a = 0 := by
        simp [indexRune]
      rw [hz]
      simp
    · have hacf : (a == c) = false := by
        cases hx : (a == c)
        · rfl
        · exact absurd hx hac
      have hrest : indexRune rest c ≠ -1 := by
        intro h0
        apply h
        simp [indexRune, hacf, h0]
      obtain ⟨ih1, ih2⟩ := ih hrest
      have hpos : 0 ≤ indexRune rest c := (indexRune_cases rest c).resolve_left hrest
      have hrf : (indexRune rest c == -1) = false := by
        cases hx : (indexRune rest c == -1)
        · rfl
        · exact absurd (eq_of_beq hx) hrest
      have hval : indexRune (a :: rest) c = indexRune rest c + 1 := by
        simp [indexRune, hacf, hrf]
      rw [hval]
      have htn : (indexRune rest c + 1).toNat = (indexRune rest c).toNat + 1 := by
        omega
      rw [htn]
      simp only [List.take_succ_cons, List.drop_succ_cons, List.cons_append]
      constructor
      · rw [ih1]
      · intro hmem
        rcases List.mem_cons.mp hmem with h1 | h1
        · exact hac (beq_iff_eq.mpr h1.symm)
        · exact ih2 h1

/-- Claim C10: when the Key contains a colon, KeyName is the part before the
first colon and KeySecret the part after it, so KeyName, a colon and
KeySecret concatenate back to the Key; when the Key contains no colon, both
are empty. -/
theorem C10_key_name_secret (opts : AuthOptions) :
    (':' ∈ opts.Key →
      opts.KeyName ++ ":".toList ++ opts.KeySecret = opts.Key ∧
      ':' ∉ opts.KeyName) ∧
    (':' ∉ opts.Key → opts.KeyName = [] ∧ opts.KeySecret = []) := by
  constructor
  · intro hmem
    have hne : indexRune opts.Key ':' ≠ -1 := fun h =>
      ((indexRune_neg1_iff _ _).mp h) hmem
    have hb : (indexRune opts.Key ':' != -1) = true := bne_iff_ne.mpr hne
    obtain ⟨hsplit, hnotin⟩ := indexRune_split opts.Key ':' hne
    unfold AuthOptions.KeyName AuthOptions.KeySecret
    rw [if_pos hb, if_pos hb]
    constructor
    · rw [List.append_assoc]
      exact hsplit
    · exact hnotin
  · intro hmem
    have h1 : indexRune opts.Key ':' = -1 := (indexRune_neg1_iff _ _).mpr hmem
    unfold AuthOptions.KeyName AuthOptions.KeySecret
    simp [h1]

/-- Claim C10 witness: a concrete key with a colon splits and reassembles,
and a concrete key without a colon gives an empty name. -/
theorem C10_witness :
    (':' ∈ ("name:secret".toList : Str)) ∧
    ({ Key := "name:secret".toList } : AuthOptions).KeyName ++ ":".toList ++
      ({ Key := "name:secret".toList } : AuthOptions).KeySecret =
      "name:secret".toList ∧
    (':' ∉ ("ab".toList : Str)) ∧
    ({ Key := "ab".toList } : AuthOptions).KeyName = [] :=
  ⟨by decide,
   ((C10_key_name_secret _).1 (by decide)).1,
   by decide,
   ((C10_key_name_secret _).2 (by decide)).1⟩

/-- Options with a custom REST host that is an IPv6 literal, hence contains
colons. -/
def colonHostOpts : ClientOptions := { RestHost := "::1".toList }

/-- Claim C4 counterexample: for a resolved host containing a colon the URL
is not scheme, host, colon, port: net.JoinHostPort wraps such a host in
square brackets, so restURL gives the bracketed form instead. -/
theorem C4_counterexample :
    colonHostOpts.restURL ≠
      "https://".toList ++ colonHostOpts.getRestHost ++ ":".toList ++
        itoa (colonHostOpts.activePort).1 ∧
    colonHostOpts.restURL = "https://[::1]:443".toList := by
  constructor
  · decide
  · rfl

/-- Claim C4 (amended): the active port is Port defaulting to 80 when zero
under NoTLS and TLSPort defaulting to 443 when zero otherwise, and the base
URLs are scheme, resolved host, colon and active port, except that a
resolved host containing a colon is wrapped in square brackets, as
net.JoinHostPort does for IPv6 literals. -/
theorem C4_amended_urls (opts : ClientOptions) :
    (opts.activePort).1 =
      (if opts.NoTLS then (if opts.Port = 0 then 80 else opts.Port)
       else (if opts.TLSPort = 0 then 443 else opts.TLSPort)) ∧
    opts.restURL =
      (if opts.NoTLS then "http://".toList else "https://".toList) ++
        (if opts.getRestHost.contains ':' then
          "[".toList ++ opts.getRestHost ++ "]".toList
         else opts.getRestHost) ++
        ":".toList ++ itoa (opts.activePort).1 ∧
    opts.realtimeURL =
      (if opts.NoTLS then "ws://".toList else "wss://".toList) ++
        (if opts.getRealtimeHost.contains ':' then
          "[".toList ++ opts.getRealtimeHost ++ "]".toList
         else opts.getRealtimeHost) ++
        ":".toList ++ itoa (opts.activePort).1 := by
  refine ⟨?_, ?_, ?_⟩
  · unfold ClientOptions.activePort
    cases h : opts.NoTLS <;>
      simp [h, defaultOptions, Port, TLSPort, beq_iff_eq] <;>
      split <;> simp_all
  · unfold ClientOptions.restURL joinHostPort
    cases h : opts.NoTLS <;>
      cases hc : opts.getRestHost.contains ':' <;>
      simp [h, hc, List.append_assoc] <;>
      (intro hmem; simp_all)
  · unfold ClientOptions.realtimeURL joinHostPort
    cases h : opts.NoTLS <;>
      cases hc : opts.getRealtimeHost.contains ':' <;>
      simp [h, hc, List.append_assoc] <;>
      (intro hmem; simp_all)

/-- Claim C5: closed and failed are terminal: from any reachable state whose
connection state is closed or failed, no automatic event changes the state. -/
theorem C5_terminal_states (s : ConnectionState) (hr : ReachableConn s)
    (hterm : s = ConnectionState.closed ∨ s = ConnectionState.failed)
    (e : ConnEvent) (he : e.isAutomatic = true) :
    stepConn s e = s := by
  rcases hterm with h | h <;> subst h <;> cases e <;> rfl

/-- Claim C5 witness: the closed state is reached by connecting then closing,
and the automatic transport-error event leaves it unchanged. -/
theorem C5_witness :
    ReachableConn ConnectionState.closed ∧
    ConnEvent.isAutomatic ConnEvent.transportError = true ∧
    stepConn ConnectionState.closed ConnEvent.transportError =
      ConnectionState.closed :=
  ⟨⟨[ConnEvent.userConnect, ConnEvent.userClose, ConnEvent.closeAck], rfl⟩,
   rfl,
   C5_terminal_states ConnectionState.closed
     ⟨[ConnEvent.userConnect, ConnEvent.userClose, ConnEvent.closeAck], rfl⟩
     (Or.inl rfl) ConnEvent.transportError rfl⟩

/-- A timed fold ignores the time components: it equals the untimed fold of
the events, when the jitter list has the length of the event list. -/
theorem foldl_timed_eq_untimed (es : List ConnEvent) (j : List Int)
    (s : ConnectionState) (h : j.length = es.length) :
    (es.zip j).foldl (fun t te => stepConn t te.1) s = es.foldl stepConn s := by
  induction es generalizing j s with
  | nil => simp
  | cons e rest ih =>
    cases j with
    | nil => simp at h
    | cons t jt =>
      simp only [List.zip_cons_cons, List.foldl_cons]
      exact ih jt (stepConn s e) (by simpa using h)

/-- Claim C6: with a fixed clock, two runs that process the same transport
events in the same order but with different arrival jitter end in the same
connection state: the final state is a function of the event order alone. -/
theorem C6_state_deterministic (clock : Int) (es : List ConnEvent)
    (j1 j2 : List Int) (h1 : j1.length = es.length)
    (h2 : j2.length = es.length) :
    runTimed clock ConnectionState.initialized (es.zip j1) =
      runTimed clock ConnectionState.initialized (es.zip j2) := by
  unfold runTimed
  rw [foldl_timed_eq_untimed es j1 _ h1, foldl_timed_eq_untimed es j2 _ h2]

/-- Claim C6 witness: a concrete open and close sequence under two different
jitter assignments reaches the same state. -/
theorem C6_witness :
    ([(0 : Int), 7]).length =
      ([ConnEvent.transportOpened, ConnEvent.transportClosed]).length ∧
    runTimed 0 ConnectionState.initialized
        ([ConnEvent.transportOpened, ConnEvent.transportClosed].zip [0, 7]) =
      runTimed 0 ConnectionState.initialized
        ([ConnEvent.transportOpened, ConnEvent.transportClosed].zip [3, 1]) :=
  ⟨rfl,
   C6_state_deterministic 0 [ConnEvent.transportOpened, ConnEvent.transportClosed]
     [0, 7] [3, 1] rfl rfl⟩

/-- Repeated firing of a listener. -/
def fireIter : Nat → Listener → Listener
  | 0, l => l
  | n + 1, l => fireIter n (fireListener l)

/-- An inactive listener is never fired again. -/
theorem fireIter_inactive (n : Nat) (o : Bool) (c : Nat) :
    fireIter n { once := o, active := false, calls := c } =
      { once := o, active := false, calls := c } := by
  induction n with
  | zero => rfl
  | succ m ih =>
    simp only [fireIter, fireListener]
    simpa using ih

/-- A fresh once-listener fired any positive number of times ends up invoked
exactly once and deregistered. -/
theorem fireIter_once_fresh (n : Nat) (h : 1 ≤ n) :
    fireIter n { once := true, active := true, calls := 0 } =
      { once := true, active := false, calls := 1 } := by
  cases n with
  | zero => omega
  | succ m =>
    simp only [fireIter, fireListener]
    simpa using fireIter_inactive m true 1

/-- The last listener of an emitter after k delivery steps: it has been fired
once for each of the events actually delivered, namely the smaller of the
step count and the pending count. -/
theorem deliverN_getLast (k : Nat) (p : Nat) (ls : List Listener) (l : Listener) :
    ((deliverN k { pending := p, listeners := ls ++ [l] }).listeners).getLast? =
      some (fireIter (min k p) l) := by
  induction k generalizing p ls l with
  | zero =>
    simp [deliverN, fireIter]
  | succ m ih =>
    cases p with
    | zero =>
      simp only [deliverN, deliverOne]
      rw [ih 0 ls l]
      simp [Nat.min_zero]
    | succ q =>
      simp only [deliverN, deliverOne, List.map_append, List.map_cons, List.map_nil]
      rw [ih q (ls.map fireListener) (fireListener l)]
      congr 1
      have hmin : min (m + 1) (q + 1) = min m q + 1 := Nat.succ_min_succ m q
      rw [hmin]
      rfl

/-- Claim C7: a listener registered through the once variant, possibly while
matching events are already in flight, is invoked exactly once and
deregistered across any positive number of delivery steps of a positive
number of pending matching events, 100 rapid consecutive events included. -/
theorem C7_once_fires_exactly_once (p k : Nat) (ls : List Listener)
    (hp : 1 ≤ p) (hk : 1 ≤ k) :
    ((deliverN k (registerOnce { pending := p, listeners := ls })).listeners).getLast? =
      some { once := true, active := false, calls := 1 } := by
  unfold registerOnce
  rw [deliverN_getLast k p ls { once := true, active := true, calls := 0 }]
  rw [fireIter_once_fresh (min k p) (Nat.le_min.mpr ⟨hk, hp⟩)]

/-- Claim C7 witness: across 100 rapid consecutive matching events the once
listener fires exactly once. -/
theorem C7_witness :
    1 ≤ 100 ∧
    ((deliverN 100 (registerOnce { pending := 100, listeners := [] })).listeners).getLast? =
      some { once := true, active := false, calls := 1 } :=
  ⟨by omega, C7_once_fires_exactly_once 100 100 [] (by omega) (by omega)⟩

end Ably
